import Mathlib

/-!
Verification of the telemetry/analytics subsystem of the Idiscovr wireless
mobility simulation (scratch_tests_additionnel/wifi-roaming-v4.cc and
scratch_tests_additionnel/roaming-saturation.cc).

The development embeds:
* the association tracker (`AssociationCallback` / `DisassociationCallback`):
  per-station current-AP map, global handover counter, append-only event log;
* the log-distance propagation model (`CalculateRssi` / `CalculateDistance`);
* the post-run flow-statistics aggregation loop;
* the serialization of the handover event log to `handover_events.csv`.

Access-point identifiers (`Mac48Address` values) are modelled by their rendered
character strings (`List Char`), which is how the source compares and logs
them.  Event timestamps and station ids are naturals; timestamps are opaque
pass-through tokens for the tracker logic.
-/

namespace Idiscovr

/-- Rendered access-point identifier (the string form of a `Mac48Address`). -/
abbrev ApId := List Char

/-- One row of the handover event log, as written to `handover_events.csv`:
ASSOC and DEASSOC rows carry a time, a station id and one AP; HANDOVER rows
carry the previous AP and the new AP. -/
inductive LogRow where
  | assoc (time station : Nat) (ap : ApId)
  | deassoc (time station : Nat) (ap : ApId)
  | handover (time station : Nat) (fromAp toAp : ApId)
deriving DecidableEq

/-- Mutable state of the association tracker: the `currentAp` map
(`std::map<uint32_t, Mac48Address>`, modelled as a partial function), the
global `handoverCount`, and the event log written to `handoverFile`. -/
structure TrackerState where
  currentAp : Nat → Option ApId
  handoverCount : Nat
  log : List LogRow

/-- State at program start: empty map, zero counter, empty log. -/
def initState : TrackerState :=
  { currentAp := fun _ => none, handoverCount := 0, log := [] }

/-- `AssociationCallback`: if the station already has a recorded AP different
from `ap`, increment the handover counter and log a HANDOVER row; then
unconditionally record `ap` as the station's current AP and log an ASSOC row. -/
def onAssociate (time station : Nat) (ap : ApId) (st : TrackerState) :
    TrackerState :=
  let st1 :=
    match st.currentAp station with
    | some prev =>
      if prev ≠ ap then
        { st with
          handoverCount := st.handoverCount + 1,
          log := st.log ++ [LogRow.handover time station prev ap] }
      else st
    | none => st
  { st1 with
    currentAp := Function.update st1.currentAp station (some ap),
    log := st1.log ++ [LogRow.assoc time station ap] }

/-- `DisassociationCallback`: log a DEASSOC row; the `currentAp` map and the
handover counter are untouched. -/
def onDisassociate (time station : Nat) (ap : ApId) (st : TrackerState) :
    TrackerState :=
  { st with log := st.log ++ [LogRow.deassoc time station ap] }

/-- Counter contribution of one Associate event given the previously recorded
AP of the station. -/
def handoverIncrement (recorded : Option ApId) (ap : ApId) : Nat :=
  match recorded with
  | some prev => if prev = ap then 0 else 1
  | none => 0

/-- C1: handling Associate(t, s, ap) increments the global handover counter by
exactly 1 when station s has a recorded current AP that differs from ap, and
by 0 otherwise; in particular when s has no recorded AP yet (its first-ever
Associate) the counter is unchanged, regardless of ap. -/
theorem onAssociate_handoverCount (st : TrackerState) (t s : Nat) (ap : ApId) :
    (onAssociate t s ap st).handoverCount
      = st.handoverCount + handoverIncrement (st.currentAp s) ap
    ∧ (st.currentAp s = none →
        (onAssociate t s ap st).handoverCount = st.handoverCount) := by
  constructor
  · unfold onAssociate handoverIncrement
    match h : st.currentAp s with
    | some prev =>
      by_cases hne : prev = ap
      · simp [hne]
      · simp [hne]
    | none => simp
  · intro h
    unfold onAssociate
    simp [h]

/-- Witness for C1 at a concrete state with no recorded AP for station 0. -/
theorem onAssociate_handoverCount_witness :
    initState.currentAp 0 = none
    ∧ (onAssociate 1 0 ("AA").toList initState).handoverCount
        = initState.handoverCount :=
  ⟨rfl, (onAssociate_handoverCount initState 1 0 ("AA").toList).2 rfl⟩

/-- C6: after every Associate for station s, s's current AP is exactly the
event's ap, and every other station's entry is unchanged — whichever way the
event was classified. -/
theorem onAssociate_currentAp (st : TrackerState) (t s : Nat) (ap : ApId)
    (s' : Nat) :
    (onAssociate t s ap st).currentAp s'
      = if s' = s then some ap else st.currentAp s' := by
  unfold onAssociate
  match h : st.currentAp s with
  | some prev =>
    by_cases hne : prev = ap <;> simp [hne, Function.update_apply]
  | none => simp [Function.update_apply]

/-- C7: a Disassociate appends exactly one DEASSOC row for the station and
changes neither any station's recorded current AP nor the handover counter. -/
theorem onDisassociate_effect (st : TrackerState) (t s : Nat) (ap : ApId) :
    (onDisassociate t s ap st).log = st.log ++ [LogRow.deassoc t s ap]
    ∧ (onDisassociate t s ap st).currentAp = st.currentAp
    ∧ (onDisassociate t s ap st).handoverCount = st.handoverCount :=
  ⟨rfl, rfl, rfl⟩

/-- Rows appended to the log by one Associate event, given the previously
recorded AP of the station: a HANDOVER row (previous AP first, new AP second)
followed by an ASSOC row on a handover, and a single ASSOC row otherwise. -/
def associateRows (recorded : Option ApId) (time station : Nat) (ap : ApId) :
    List LogRow :=
  match recorded with
  | some prev =>
    if prev = ap then [LogRow.assoc time station ap]
    else [LogRow.handover time station prev ap, LogRow.assoc time station ap]
  | none => [LogRow.assoc time station ap]

/-- C8: a handover appends exactly two rows, a HANDOVER row carrying the
previous AP and the new AP (in that order) and then an ASSOC row carrying the
new AP; a first association or a reassociation appends exactly one ASSOC row
and no HANDOVER row. -/
theorem onAssociate_log (st : TrackerState) (t s : Nat) (ap : ApId) :
    (onAssociate t s ap st).log
      = st.log ++ associateRows (st.currentAp s) t s ap := by
  unfold onAssociate associateRows
  match h : st.currentAp s with
  | some prev =>
    by_cases hne : prev = ap
    · simp [hne]
    · simp [hne]
  | none => simp

/-- 3-D position (ns-3 `Vector`). -/
structure Vec3 where
  x : ℝ
  y : ℝ
  z : ℝ

/-- Transmit power in dBm, hard-coded in `CalculateRssi`. -/
def txPowerDbm : ℝ := 16.0

/-- Path-loss exponent, hard-coded in `CalculateRssi`. -/
def exponent : ℝ := 3.0

/-- Reference distance in metres, hard-coded in `CalculateRssi`. -/
def referenceDistance : ℝ := 1.0

/-- Loss at the reference distance in dB, hard-coded in `CalculateRssi`. -/
def referenceLoss : ℝ := 46.6777

/-- Euclidean distance between two positions (`CalculateDistance`). -/
noncomputable def CalculateDistance (a b : Vec3) : ℝ :=
  Real.sqrt ((b.x - a.x) * (b.x - a.x) + (b.y - a.y) * (b.y - a.y)
    + (b.z - a.z) * (b.z - a.z))

/-- Path loss at a given distance: the branch of `CalculateRssi` computing
`pathLossDb`; the logarithm is only taken past the reference distance. -/
noncomputable def pathLossDb (distance : ℝ) : ℝ :=
  if distance ≤ referenceDistance then referenceLoss
  else referenceLoss + 10 * exponent * Real.logb 10 (distance / referenceDistance)

/-- RSSI at a given distance: transmit power minus path loss. -/
noncomputable def rssiAtDistance (distance : ℝ) : ℝ :=
  txPowerDbm - pathLossDb distance

/-- `CalculateRssi`: distance between the two mobility positions, then the
log-distance path-loss model. -/
noncomputable def CalculateRssi (txMobility rxMobility : Vec3) : ℝ :=
  rssiAtDistance (CalculateDistance txMobility rxMobility)

/-- C2: for any transmitter and receiver positions, the RSSI is exactly
`txPowerDbm - referenceLoss` whenever the Euclidean distance is at most the
reference distance (zero distance included), and exactly
`txPowerDbm - (referenceLoss + 10 * exponent * log10 (distance / referenceDistance))`
whenever the distance exceeds it. -/
theorem CalculateRssi_spec (tx rx : Vec3) :
    (CalculateDistance tx rx ≤ referenceDistance →
      CalculateRssi tx rx = txPowerDbm - referenceLoss)
    ∧ (referenceDistance < CalculateDistance tx rx →
      CalculateRssi tx rx
        = txPowerDbm - (referenceLoss + 10 * exponent
            * Real.logb 10 (CalculateDistance tx rx / referenceDistance))) := by
  constructor
  · intro h
    unfold CalculateRssi rssiAtDistance pathLossDb
    rw [if_pos h]
  · intro h
    unfold CalculateRssi rssiAtDistance pathLossDb
    rw [if_neg (not_le.mpr h)]

/-- Position at the origin, used to evaluate the propagation model. -/
def posOrigin : Vec3 := ⟨0, 0, 0⟩

/-- Position two metres from the origin along the x axis. -/
def posTwo : Vec3 := ⟨2, 0, 0⟩

/-- Distance from the origin to itself is zero. -/
theorem dist_origin_origin : CalculateDistance posOrigin posOrigin = 0 := by
  unfold CalculateDistance posOrigin
  norm_num [Real.sqrt_zero]

/-- Distance from the origin to `posTwo` is two metres. -/
theorem dist_origin_two : CalculateDistance posOrigin posTwo = 2 := by
  unfold CalculateDistance posOrigin posTwo
  norm_num
  rw [show (4:ℝ) = 2 ^ 2 by norm_num, Real.sqrt_sq (by norm_num)]

/-- Witness for C2: the near branch at coincident positions and the far branch
at a two-metre separation. -/
theorem CalculateRssi_spec_witness :
    CalculateRssi posOrigin posOrigin = txPowerDbm - referenceLoss
    ∧ CalculateRssi posOrigin posTwo
        = txPowerDbm - (referenceLoss + 10 * exponent
            * Real.logb 10 (CalculateDistance posOrigin posTwo
                / referenceDistance)) :=
  ⟨(CalculateRssi_spec posOrigin posOrigin).1
      (by rw [dist_origin_origin]; norm_num [referenceDistance]),
   (CalculateRssi_spec posOrigin posTwo).2
      (by rw [dist_origin_two]; norm_num [referenceDistance])⟩

/-- C3: beyond the reference distance, RSSI is non-increasing in distance:
for `referenceDistance < d1 < d2`, the RSSI at `d1` is at least the RSSI at
`d2`. -/
theorem rssiAtDistance_antitone (d1 d2 : ℝ)
    (h1 : referenceDistance < d1) (h12 : d1 < d2) :
    rssiAtDistance d2 ≤ rssiAtDistance d1 := by
  have h2 : referenceDistance < d2 := lt_trans h1 h12
  unfold rssiAtDistance pathLossDb
  rw [if_neg (not_le.mpr h1), if_neg (not_le.mpr h2)]
  have hrefpos : (0:ℝ) < referenceDistance := by norm_num [referenceDistance]
  have hd1pos : 0 < d1 / referenceDistance :=
    div_pos (lt_trans hrefpos h1) hrefpos
  have hle : d1 / referenceDistance ≤ d2 / referenceDistance :=
    (div_le_div_iff_of_pos_right hrefpos).mpr (le_of_lt h12)
  have hlog : Real.logb 10 (d1 / referenceDistance)
      ≤ Real.logb 10 (d2 / referenceDistance) :=
    Real.logb_le_logb_of_le (by norm_num) hd1pos hle
  have hmul : 10 * exponent * Real.logb 10 (d1 / referenceDistance)
      ≤ 10 * exponent * Real.logb 10 (d2 / referenceDistance) := by
    apply mul_le_mul_of_nonneg_left hlog
    norm_num [exponent]
  linarith

/-- Witness for C3 at distances two and three metres. -/
theorem rssiAtDistance_antitone_witness :
    rssiAtDistance 3 ≤ rssiAtDistance 2 :=
  rssiAtDistance_antitone 2 3 (by norm_num [referenceDistance]) (by norm_num)

/-- Per-flow counters delivered by the engine's flow monitor at the end of the
run (`FlowMonitor::FlowStats`); times are in seconds, modelled as exact
rationals. -/
structure FlowStats where
  txPackets : Nat
  rxPackets : Nat
  lostPackets : Nat
  delaySum : ℚ
  jitterSum : ℚ
  lastDelay : ℚ
  txBytes : Nat
  rxBytes : Nat
  timeFirstTxPacket : ℚ
  timeLastRxPacket : ℚ
deriving DecidableEq

/-- `duration` as computed in the flow-stats loop:
`(timeLastRxPacket - timeFirstTxPacket).GetSeconds()`, written verbatim to the
Duration column of `flow_stats.csv`. -/
def durationSeconds (f : FlowStats) : ℚ :=
  f.timeLastRxPacket - f.timeFirstTxPacket

/-- `throughput` as computed in the flow-stats loop: zero unless the duration
is positive, otherwise `rxBytes * 8.0 / duration / 1000` (Kbps). -/
def throughputKbps (f : FlowStats) : ℚ :=
  if 0 < durationSeconds f then (f.rxBytes : ℚ) * 8 / durationSeconds f / 1000
  else 0

/-- Mean delay as computed in the flow-stats loop:
`rxPackets > 0 ? delaySum / rxPackets : 0`. -/
def meanDelaySeconds (f : FlowStats) : ℚ :=
  if 0 < f.rxPackets then f.delaySum / (f.rxPackets : ℚ) else 0

/-- A flow with no received traffic: no received packets or bytes, and the
last-reception timestamp still at its initial value of zero. -/
def noRxTraffic (f : FlowStats) : Prop :=
  f.rxPackets = 0 ∧ f.rxBytes = 0 ∧ f.timeLastRxPacket = 0

instance (f : FlowStats) : Decidable (noRxTraffic f) := by
  unfold noRxTraffic
  infer_instance

/-- A flow snapshot with transmitted but no received traffic. -/
def flowNoRx : FlowStats :=
  { txPackets := 10, rxPackets := 0, lostPackets := 10, delaySum := 0,
    jitterSum := 0, lastDelay := 0, txBytes := 40960, rxBytes := 0,
    timeFirstTxPacket := 1, timeLastRxPacket := 0 }

/-- C4 counterexample: a flow with no received traffic whose first
transmission is at one second has Duration `-1`, which is negative, not 0. -/
theorem durationSeconds_noRx_counterexample :
    noRxTraffic flowNoRx
    ∧ durationSeconds flowNoRx < 0
    ∧ durationSeconds flowNoRx ≠ 0 := by
  refine ⟨⟨rfl, rfl, rfl⟩, ?_, ?_⟩ <;> norm_num [durationSeconds, flowNoRx]

/-- C4 (amended): the Duration column always receives
`timeLastRxPacket - timeFirstTxPacket`; for a flow with no received traffic
whose first transmission is at a positive time the value is
`-timeFirstTxPacket`, which is negative — it is not clamped to 0. -/
theorem durationSeconds_spec (f : FlowStats) :
    durationSeconds f = f.timeLastRxPacket - f.timeFirstTxPacket
    ∧ (noRxTraffic f → 0 < f.timeFirstTxPacket →
        durationSeconds f = -f.timeFirstTxPacket ∧ durationSeconds f < 0) := by
  refine ⟨rfl, fun hno hpos => ?_⟩
  obtain ⟨-, -, hlast⟩ := hno
  unfold durationSeconds
  rw [hlast]
  constructor
  · ring
  · linarith

/-- Witness for C4 (amended) at the concrete zero-reception flow. -/
theorem durationSeconds_spec_witness : durationSeconds flowNoRx = -1 :=
  (((durationSeconds_spec flowNoRx).2 ⟨rfl, rfl, rfl⟩
      (by norm_num [flowNoRx])).1).trans (by norm_num [flowNoRx])

/-- C5: the derived flow metrics — throughput is 0 when the duration is not
positive and `rxBytes * 8 / 1000 / duration` when it is; mean delay is 0 when
no packet was received and `delaySum / rxPackets` otherwise; a zero-traffic
flow is processed and yields zeroed derived fields. -/
theorem flowDerived_spec (f : FlowStats) :
    (durationSeconds f ≤ 0 → throughputKbps f = 0)
    ∧ (0 < durationSeconds f →
        throughputKbps f = (f.rxBytes : ℚ) * 8 / 1000 / durationSeconds f)
    ∧ (f.rxPackets = 0 → meanDelaySeconds f = 0)
    ∧ (0 < f.rxPackets →
        meanDelaySeconds f = f.delaySum / (f.rxPackets : ℚ))
    ∧ (noRxTraffic f → throughputKbps f = 0 ∧ meanDelaySeconds f = 0) := by
  refine ⟨fun h => ?_, fun h => ?_, fun h => ?_, fun h => ?_, fun hno => ?_⟩
  · unfold throughputKbps
    rw [if_neg (not_lt.mpr h)]
  · unfold throughputKbps
    rw [if_pos h, div_right_comm]
  · unfold meanDelaySeconds
    rw [if_neg (by simp [h])]
  · unfold meanDelaySeconds
    rw [if_pos h]
  · obtain ⟨hpk, hby, -⟩ := hno
    constructor
    · unfold throughputKbps
      by_cases hd : 0 < durationSeconds f
      · rw [if_pos hd, hby]
        norm_num
      · rw [if_neg hd]
    · unfold meanDelaySeconds
      rw [if_neg (by simp [hpk])]

/-- A flow snapshot with received traffic: 900000 bytes over eight seconds. -/
def flowBusy : FlowStats :=
  { txPackets := 200, rxPackets := 100, lostPackets := 100, delaySum := 5,
    jitterSum := 0, lastDelay := 0, txBytes := 1000000, rxBytes := 900000,
    timeFirstTxPacket := 1, timeLastRxPacket := 9 }

/-- Witness for C5: 900000 received bytes over eight seconds give 900 Kbps and
a mean delay of 1/20 s; the zero-reception flow gives zero throughput. -/
theorem flowDerived_spec_witness :
    throughputKbps flowBusy = 900
    ∧ meanDelaySeconds flowBusy = 1 / 20
    ∧ throughputKbps flowNoRx = 0 :=
  ⟨((flowDerived_spec flowBusy).2.1
      (by norm_num [durationSeconds, flowBusy])).trans
      (by norm_num [durationSeconds, flowBusy]),
   ((flowDerived_spec flowBusy).2.2.2.1
      (by norm_num [flowBusy])).trans (by norm_num [flowBusy]),
   ((flowDerived_spec flowNoRx).2.2.2.2 ⟨rfl, rfl, rfl⟩).1⟩

/-- Decimal digit character for a value below ten. -/
def digitChar : Nat → Char
  | 0 => '0'
  | 1 => '1'
  | 2 => '2'
  | 3 => '3'
  | 4 => '4'
  | 5 => '5'
  | 6 => '6'
  | 7 => '7'
  | 8 => '8'
  | 9 => '9'
  | _ => '*'

/-- Fuel-driven decimal rendering of a natural number, most significant digit
first; the fuel bounds the recursion depth. -/
def natToDecAux : Nat → Nat → List Char
  | 0, _ => []
  | fuel + 1, n =>
    if n < 10 then [digitChar n]
    else natToDecAux fuel (n / 10) ++ [digitChar (n % 10)]

/-- Decimal rendering of a natural number, as `operator<<` produces for the
`uint32_t` station ids and (time) values written to the CSV files. -/
def natToDec (n : Nat) : List Char := natToDecAux (n + 1) n

/-- One step of decimal parsing: shift the accumulator and add a digit. -/
def decStep (a : Nat) (c : Char) : Nat := 10 * a + (c.toNat - 48)

/-- Decimal parsing of a non-empty all-digit character list. -/
def decToNat (l : List Char) : Option Nat :=
  if l = [] then none
  else if l.all Char.isDigit then some (l.foldl decStep 0) else none

theorem digitChar_isDigit {d : Nat} (h : d < 10) :
    (digitChar d).isDigit = true := by
  interval_cases d <;> rfl

theorem digitChar_toNat {d : Nat} (h : d < 10) :
    (digitChar d).toNat = 48 + d := by
  interval_cases d <;> rfl

theorem isDigit_ne_sep {c : Char} (h : c.isDigit = true) :
    c ≠ ',' ∧ c ≠ '\n' := by
  constructor <;> rintro rfl <;> exact absurd h (by decide)

theorem natToDecAux_digits :
    ∀ fuel n, n < fuel → ∀ c ∈ natToDecAux fuel n, c.isDigit = true := by
  intro fuel
  induction fuel with
  | zero => intro n h; omega
  | succ fuel ih =>
    intro n h c hc
    have heq : natToDecAux (fuel + 1) n
        = if n < 10 then [digitChar n]
          else natToDecAux fuel (n / 10) ++ [digitChar (n % 10)] := rfl
    rw [heq] at hc
    by_cases h10 : n < 10
    · rw [if_pos h10] at hc
      simp only [List.mem_singleton] at hc
      subst hc
      exact digitChar_isDigit h10
    · rw [if_neg h10] at hc
      rcases List.mem_append.mp hc with h1 | h2
      · have hfuel : n / 10 < fuel := by
          have := Nat.div_lt_self (show 0 < n by omega) (show 1 < 10 by omega)
          omega
        exact ih (n / 10) hfuel c h1
      · simp only [List.mem_singleton] at h2
        subst h2
        exact digitChar_isDigit (Nat.mod_lt n (by omega))

theorem natToDec_digits (n : Nat) :
    ∀ c ∈ natToDec n, c.isDigit = true :=
  natToDecAux_digits (n + 1) n (Nat.lt_succ_self n)

theorem comma_not_mem_natToDec (n : Nat) : ',' ∉ natToDec n := by
  intro h
  exact absurd (natToDec_digits n ',' h) (by decide)

theorem newline_not_mem_natToDec (n : Nat) : '\n' ∉ natToDec n := by
  intro h
  exact absurd (natToDec_digits n '\n' h) (by decide)

theorem natToDecAux_ne_nil (fuel n : Nat) :
    natToDecAux (fuel + 1) n ≠ [] := by
  have heq : natToDecAux (fuel + 1) n
      = if n < 10 then [digitChar n]
        else natToDecAux fuel (n / 10) ++ [digitChar (n % 10)] := rfl
  rw [heq]
  by_cases h10 : n < 10
  · simp [h10]
  · simp [h10]

theorem natToDec_ne_nil (n : Nat) : natToDec n ≠ [] :=
  natToDecAux_ne_nil n n

theorem foldl_natToDecAux :
    ∀ fuel n a, n < fuel →
      List.foldl decStep a (natToDecAux fuel n)
        = a * 10 ^ (natToDecAux fuel n).length + n := by
  intro fuel
  induction fuel with
  | zero => intro n a h; omega
  | succ fuel ih =>
    intro n a h
    have heq : natToDecAux (fuel + 1) n
        = if n < 10 then [digitChar n]
          else natToDecAux fuel (n / 10) ++ [digitChar (n % 10)] := rfl
    rw [heq]
    by_cases h10 : n < 10
    · rw [if_pos h10]
      simp only [List.foldl_cons, List.foldl_nil, List.length_singleton,
        pow_one, decStep]
      rw [digitChar_toNat h10]
      omega
    · rw [if_neg h10]
      have hfuel : n / 10 < fuel := by
        have := Nat.div_lt_self (show 0 < n by omega) (show 1 < 10 by omega)
        omega
      rw [List.foldl_append, ih (n / 10) a hfuel]
      simp only [List.foldl_cons, List.foldl_nil, List.length_append,
        List.length_singleton, decStep]
      rw [digitChar_toNat (Nat.mod_lt n (by omega)), pow_succ]
      have hcancel : 48 + n % 10 - 48 = n % 10 := by omega
      rw [hcancel, ← mul_assoc]
      generalize a * 10 ^ (natToDecAux fuel (n / 10)).length = B
      omega

theorem decToNat_natToDec (n : Nat) : decToNat (natToDec n) = some n := by
  unfold decToNat
  rw [if_neg (natToDec_ne_nil n),
    if_pos (List.all_eq_true.mpr (natToDec_digits n))]
  have hf := foldl_natToDecAux (n + 1) n 0 (Nat.lt_succ_self n)
  unfold natToDec
  rw [hf]
  simp

/-- Split a character list at every occurrence of a separator; the result is
the list of (possibly empty) fields between separators. -/
def splitChar (sep : Char) : List Char → List (List Char)
  | [] => [[]]
  | c :: cs =>
    match splitChar sep cs with
    | [] => [[]]
    | f :: r => if c = sep then [] :: f :: r else (c :: f) :: r

theorem splitChar_ne_nil (sep : Char) (l : List Char) :
    splitChar sep l ≠ [] := by
  induction l with
  | nil => simp [splitChar]
  | cons c cs ih =>
    cases h : splitChar sep cs with
    | nil => simp [splitChar, h]
    | cons f r => by_cases hc : c = sep <;> simp [splitChar, h, hc]

theorem splitChar_not_mem {sep : Char} {l : List Char} (h : sep ∉ l) :
    splitChar sep l = [l] := by
  induction l with
  | nil => rfl
  | cons c cs ih =>
    have hc : c ≠ sep := fun hcs => h (hcs ▸ List.mem_cons_self c cs)
    have hcs : sep ∉ cs := fun hm => h (List.mem_cons_of_mem c hm)
    simp [splitChar, ih hcs, hc]

theorem splitChar_append {sep : Char} {l : List Char} (h : sep ∉ l)
    (rest : List Char) :
    splitChar sep (l ++ sep :: rest) = l :: splitChar sep rest := by
  induction l with
  | nil =>
    obtain ⟨f, r, heq⟩ : ∃ f r, splitChar sep rest = f :: r := by
      cases h' : splitChar sep rest with
      | nil => exact absurd h' (splitChar_ne_nil sep rest)
      | cons f r => exact ⟨f, r, rfl⟩
    simp [splitChar, heq]
  | cons c cs ih =>
    have hc : c ≠ sep := fun hcs => h (hcs ▸ List.mem_cons_self c cs)
    have hcs : sep ∉ cs := fun hm => h (List.mem_cons_of_mem c hm)
    simp only [List.cons_append, splitChar, List.append_eq]
    rw [ih hcs]
    simp [hc]

/-- EventType field of ASSOC rows. -/
def assocTag : List Char := ("ASSOC").toList

/-- EventType field of DEASSOC rows. -/
def deassocTag : List Char := ("DEASSOC").toList

/-- EventType field of HANDOVER rows. -/
def handoverTag : List Char := ("HANDOVER").toList

/-- Header line of `handover_events.csv`. -/
def headerLine : List Char :=
  ("Time,EventType,StationID,AccessPoint1,AccessPoint2").toList

/-- One data line of `handover_events.csv`, exactly as the callbacks stream
it: `time,TYPE,station,ap` for ASSOC and DEASSOC rows, and
`time,HANDOVER,station,fromAp,toAp` for HANDOVER rows. -/
def rowLine : LogRow → List Char
  | .assoc t s ap =>
    natToDec t ++ ',' :: (assocTag ++ ',' :: (natToDec s ++ ',' :: ap))
  | .deassoc t s ap =>
    natToDec t ++ ',' :: (deassocTag ++ ',' :: (natToDec s ++ ',' :: ap))
  | .handover t s a b =>
    natToDec t ++ ',' :: (handoverTag ++ ',' :: (natToDec s ++ ',' :: (a ++ ',' :: b)))

/-- A CSV field that cannot disturb the framing: it contains neither the
field separator nor a line break.  Rendered MAC addresses satisfy this. -/
def cleanField (l : List Char) : Prop := ',' ∉ l ∧ '\n' ∉ l

instance (l : List Char) : Decidable (cleanField l) := by
  unfold cleanField
  infer_instance

/-- A log row whose AP fields are framing-safe. -/
def wfRow : LogRow → Prop
  | .assoc _ _ ap => cleanField ap
  | .deassoc _ _ ap => cleanField ap
  | .handover _ _ a b => cleanField a ∧ cleanField b

instance : (r : LogRow) → Decidable (wfRow r)
  | .assoc _ _ ap => inferInstanceAs (Decidable (cleanField ap))
  | .deassoc _ _ ap => inferInstanceAs (Decidable (cleanField ap))
  | .handover _ _ a b => inferInstanceAs (Decidable (cleanField a ∧ cleanField b))

/-- Modelled from the spec: the repository only writes `handover_events.csv`
and contains no reader, so the parser of one data line follows the spec's
documented format — comma-separated fields, `EventType` one of ASSOC,
DEASSOC (four fields) or HANDOVER (five fields, `AccessPoint2` populated). -/
def parseLine (l : List Char) : Option LogRow :=
  match splitChar ',' l with
  | [t, e, s, ap] =>
    match decToNat t, decToNat s with
    | some tv, some sv =>
      if e = assocTag then some (LogRow.assoc tv sv ap)
      else if e = deassocTag then some (LogRow.deassoc tv sv ap)
      else none
    | _, _ => none
  | [t, e, s, a, b] =>
    match decToNat t, decToNat s with
    | some tv, some sv =>
      if e = handoverTag then some (LogRow.handover tv sv a b) else none
    | _, _ => none
  | _ => none

/-- Concatenate lines, terminating each with a newline (`std::endl`). -/
def joinLines : List (List Char) → List Char
  | [] => []
  | l :: ls => l ++ '\n' :: joinLines ls

/-- The full content of `handover_events.csv` for a given event list: the
header line followed by one line per logged row. -/
def serializeFile (rows : List LogRow) : List Char :=
  joinLines (headerLine :: rows.map rowLine)

/-- Parse a list of data lines, failing if any line fails. -/
def parseLines : List (List Char) → Option (List LogRow)
  | [] => some []
  | l :: ls =>
    match parseLine l, parseLines ls with
    | some r, some rs => some (r :: rs)
    | _, _ => none

/-- Modelled from the spec: parse a whole `handover_events.csv` file — a
header line, newline-terminated data lines, one event per line. -/
def parseFile (file : List Char) : Option (List LogRow) :=
  match splitChar '\n' file with
  | [] => none
  | first :: rest =>
    if first = headerLine then
      match rest.getLast? with
      | some last => if last = [] then parseLines rest.dropLast else none
      | none => none
    else none

theorem splitChar_rowLine_assoc (t s : Nat) (ap : ApId)
    (hap : cleanField ap) :
    splitChar ',' (rowLine (LogRow.assoc t s ap))
      = [natToDec t, assocTag, natToDec s, ap] := by
  unfold rowLine
  rw [splitChar_append (comma_not_mem_natToDec t),
    splitChar_append (by decide : ',' ∉ assocTag),
    splitChar_append (comma_not_mem_natToDec s),
    splitChar_not_mem hap.1]

theorem splitChar_rowLine_deassoc (t s : Nat) (ap : ApId)
    (hap : cleanField ap) :
    splitChar ',' (rowLine (LogRow.deassoc t s ap))
      = [natToDec t, deassocTag, natToDec s, ap] := by
  unfold rowLine
  rw [splitChar_append (comma_not_mem_natToDec t),
    splitChar_append (by decide : ',' ∉ deassocTag),
    splitChar_append (comma_not_mem_natToDec s),
    splitChar_not_mem hap.1]

theorem splitChar_rowLine_handover (t s : Nat) (a b : ApId)
    (ha : cleanField a) (hb : cleanField b) :
    splitChar ',' (rowLine (LogRow.handover t s a b))
      = [natToDec t, handoverTag, natToDec s, a, b] := by
  unfold rowLine
  rw [splitChar_append (comma_not_mem_natToDec t),
    splitChar_append (by decide : ',' ∉ handoverTag),
    splitChar_append (comma_not_mem_natToDec s),
    splitChar_append ha.1,
    splitChar_not_mem hb.1]

theorem newline_not_mem_rowLine (r : LogRow) (h : wfRow r) :
    '\n' ∉ rowLine r := by
  have hcomma : ¬ ('\n' = ',') := by decide
  have htag1 : '\n' ∉ assocTag := by decide
  have htag2 : '\n' ∉ deassocTag := by decide
  have htag3 : '\n' ∉ handoverTag := by decide
  cases r with
  | assoc t s ap =>
    have hap : '\n' ∉ ap := h.2
    have h1 := newline_not_mem_natToDec t
    have h2 := newline_not_mem_natToDec s
    intro hmem
    simp only [rowLine, List.mem_append, List.mem_cons] at hmem
    tauto
  | deassoc t s ap =>
    have hap : '\n' ∉ ap := h.2
    have h1 := newline_not_mem_natToDec t
    have h2 := newline_not_mem_natToDec s
    intro hmem
    simp only [rowLine, List.mem_append, List.mem_cons] at hmem
    tauto
  | handover t s a b =>
    have ha : '\n' ∉ a := h.1.2
    have hb : '\n' ∉ b := h.2.2
    have h1 := newline_not_mem_natToDec t
    have h2 := newline_not_mem_natToDec s
    intro hmem
    simp only [rowLine, List.mem_append, List.mem_cons] at hmem
    tauto

theorem parseLine_rowLine (r : LogRow) (h : wfRow r) :
    parseLine (rowLine r) = some r := by
  have hne : deassocTag ≠ assocTag := by decide
  cases r with
  | assoc t s ap =>
    unfold parseLine
    rw [splitChar_rowLine_assoc t s ap h]
    simp [decToNat_natToDec]
  | deassoc t s ap =>
    unfold parseLine
    rw [splitChar_rowLine_deassoc t s ap h]
    simp [decToNat_natToDec, hne]
  | handover t s a b =>
    unfold parseLine
    rw [splitChar_rowLine_handover t s a b h.1 h.2]
    simp [decToNat_natToDec]

theorem splitChar_joinLines (lines : List (List Char))
    (h : ∀ l ∈ lines, '\n' ∉ l) :
    splitChar '\n' (joinLines lines) = lines ++ [[]] := by
  induction lines with
  | nil => rfl
  | cons l ls ih =>
    rw [joinLines, splitChar_append (h l (List.mem_cons_self l ls)),
      ih (fun x hx => h x (List.mem_cons_of_mem l hx))]
    rfl

theorem parseLines_map_rowLine (rows : List LogRow)
    (h : ∀ r ∈ rows, wfRow r) :
    parseLines (rows.map rowLine) = some rows := by
  induction rows with
  | nil => rfl
  | cons r rs ih =>
    simp only [List.map_cons, parseLines]
    rw [parseLine_rowLine r (h r (List.mem_cons_self r rs)),
      ih (fun x hx => h x (List.mem_cons_of_mem r hx))]

/-- C9: writing the generated event log to `handover_events.csv` (header plus
one newline-terminated line per row) and parsing the file back reproduces
exactly the same ordered event list, for every event list whose AP fields
contain no separator characters (as rendered MAC addresses do). -/
theorem serialize_parse_roundtrip (rows : List LogRow)
    (h : ∀ r ∈ rows, wfRow r) :
    parseFile (serializeFile rows) = some rows := by
  have hlines : ∀ l ∈ headerLine :: rows.map rowLine, '\n' ∉ l := by
    intro l hl
    rcases List.mem_cons.mp hl with rfl | hl'
    · decide
    · obtain ⟨r, hr, rfl⟩ := List.mem_map.mp hl'
      exact newline_not_mem_rowLine r (h r hr)
  unfold parseFile serializeFile
  rw [splitChar_joinLines _ hlines, List.cons_append]
  simp only [if_pos rfl]
  rw [List.getLast?_concat, List.dropLast_concat]
  simp only [if_pos rfl]
  exact parseLines_map_rowLine rows h

/-- A rendered MAC address used in concrete evaluations. -/
def macA : ApId := ("00:00:00:00:00:07").toList

/-- A second rendered MAC address used in concrete evaluations. -/
def macB : ApId := ("00:00:00:00:00:08").toList

/-- Witness for C9: a concrete three-event log round-trips through the file
format. -/
theorem serialize_parse_roundtrip_witness :
    parseFile (serializeFile
        [LogRow.assoc 1 0 macA, LogRow.handover 5 0 macA macB,
          LogRow.deassoc 7 0 macB])
      = some [LogRow.assoc 1 0 macA, LogRow.handover 5 0 macA macB,
          LogRow.deassoc 7 0 macB] :=
  serialize_parse_roundtrip
    [LogRow.assoc 1 0 macA, LogRow.handover 5 0 macA macB,
      LogRow.deassoc 7 0 macB]
    (by decide)

/-- C10: a serialized ASSOC or DEASSOC row has exactly 4 comma-separated
fields (so no empty fifth field), the header declares 5 columns, a serialized
HANDOVER row has 5 fields, and thus non-HANDOVER data rows have strictly
fewer fields than the header. -/
theorem row_field_counts (t s : Nat) (ap a b : ApId)
    (hap : cleanField ap) (ha : cleanField a) (hb : cleanField b) :
    (splitChar ',' (rowLine (LogRow.assoc t s ap))).length = 4
    ∧ (splitChar ',' (rowLine (LogRow.deassoc t s ap))).length = 4
    ∧ (splitChar ',' (rowLine (LogRow.handover t s a b))).length = 5
    ∧ (splitChar ',' headerLine).length = 5
    ∧ (splitChar ',' (rowLine (LogRow.assoc t s ap))).length
        < (splitChar ',' headerLine).length
    ∧ (splitChar ',' (rowLine (LogRow.deassoc t s ap))).length
        < (splitChar ',' headerLine).length := by
  have h1 := splitChar_rowLine_assoc t s ap hap
  have h2 := splitChar_rowLine_deassoc t s ap hap
  have h3 := splitChar_rowLine_handover t s a b ha hb
  have h4 : (splitChar ',' headerLine).length = 5 := by decide
  rw [h1, h2, h3, h4]
  norm_num

/-- Witness for C10 at a concrete ASSOC, DEASSOC and HANDOVER row. -/
theorem row_field_counts_witness :
    (splitChar ',' (rowLine (LogRow.assoc 1 0 macA))).length = 4
    ∧ (splitChar ',' (rowLine (LogRow.deassoc 1 0 macA))).length = 4
    ∧ (splitChar ',' (rowLine (LogRow.handover 1 0 macA macB))).length = 5
    ∧ (splitChar ',' headerLine).length = 5
    ∧ (splitChar ',' (rowLine (LogRow.assoc 1 0 macA))).length
        < (splitChar ',' headerLine).length
    ∧ (splitChar ',' (rowLine (LogRow.deassoc 1 0 macA))).length
        < (splitChar ',' headerLine).length :=
  row_field_counts 1 0 macA macA macB (by decide) (by decide) (by decide)

end Idiscovr
